import Mathlib

/-!
Verification of `src/converte_base.py`, a fixed-width B3 COTAHIST record
decoder (`parse_line`) together with its filtering extraction pipeline
(`main`).  Python-level behaviour is shallowly embedded as follows:

* Python string slicing `line[a:b]` (non-negative bounds, clipping) is
  `pySlice`; `line[190:]` is `pyDrop`.
* `str.strip()` is `pyStrip` (ASCII whitespace; the inputs of interest are
  ASCII text lines).
* `int(s)` for base 10 is `pyInt`: surrounding whitespace, an optional
  sign, and single underscores between digits are accepted, everything
  else raises (modelled as `none`).
* `int(s) / 100.0` guarded by `try/except` is `convert_price`; the float
  division is modelled by exact division in `ℚ`.
* `datetime.strptime(s, "%Y%m%d")` is `strptimeYmd`, reproducing the
  CPython `_strptime` regular-expression semantics: the year matches
  exactly four digits, month and day match one or two digits with the
  alternation priority of the patterns `1[0-2]|0[1-9]|[1-9]` and
  `3[01]|[12]\d|0[1-9]|[1-9]`, a successful match must consume the whole
  string, and the resulting components must form a valid calendar date.
  `strftime("%Y-%m-%d")` is `isoFormat` (zero-padded components).
* The line loop of `main` (length guard, "01" marker guard, ticker
  filter, write, limit check after each write, mid-file break and the
  outer break that skips the remaining sources) is `stepLine` / `runFile`
  / `runFiles` / `extract` over a state `PState`.
-/

def isPyWS (c : Char) : Bool :=
  c = ' ' || c = '\t' || c = '\n' || c = '\r' || c = Char.ofNat 11 || c = Char.ofNat 12

def isDigitCh (c : Char) : Bool :=
  48 ≤ c.toNat && c.toNat ≤ 57

def digitVal (c : Char) : Nat :=
  c.toNat - 48

/-- Python slicing `s[a:b]` for non-negative bounds: out-of-range indices
clip to the available characters. -/
def pySlice (s : String) (a b : Nat) : String :=
  ⟨(s.data.take b).drop a⟩

/-- Python slicing `s[a:]` for a non-negative bound. -/
def pyDrop (s : String) (a : Nat) : String :=
  ⟨s.data.drop a⟩

def pyStripList (l : List Char) : List Char :=
  ((l.dropWhile isPyWS).reverse.dropWhile isPyWS).reverse

/-- Python `str.strip()` (ASCII whitespace). -/
def pyStrip (s : String) : String :=
  ⟨pyStripList s.data⟩

/-- Digit run with single underscores allowed between digits, continuing
an already-read accumulator, as accepted by Python `int`. -/
def digitsRun : List Char → Nat → Option Nat
  | [], acc => some acc
  | c :: cs, acc =>
    if isDigitCh c then digitsRun cs (acc * 10 + digitVal c)
    else if c = '_' then
      match cs with
      | c2 :: cs2 =>
        if isDigitCh c2 then digitsRun cs2 (acc * 10 + digitVal c2) else none
      | [] => none
    else none

/-- A non-empty underscore-grouped digit sequence, as accepted by Python
`int` after sign handling. -/
def digitsVal : List Char → Option Nat
  | [] => none
  | c :: cs => if isDigitCh c then digitsRun cs (digitVal c) else none

def pyIntList (l : List Char) : Option Int :=
  match l with
  | [] => none
  | c :: cs =>
    if c = '+' then (digitsVal cs).map (fun n => (n : Int))
    else if c = '-' then (digitsVal cs).map (fun n => -(n : Int))
    else (digitsVal (c :: cs)).map (fun n => (n : Int))

/-- Python `int(s)` in base 10: strip whitespace, optional sign, digits
with single underscores between them; `none` models `ValueError`. -/
def pyInt (s : String) : Option Int :=
  pyIntList (pyStripList s.data)

/-- `convert_price` from `parse_line`: `int(valor_str) / 100.0` with a
bare `except` returning `None`. -/
def convert_price (s : String) : Option ℚ :=
  (pyInt s).map (fun n => (n : ℚ) / 100)

/-- `int(s)` with the `try/except` defaulting to `0` used for the integer
fields of `parse_line`. -/
def pyIntD (s : String) : Int :=
  (pyInt s).getD 0

/-- Value of a digit list read in base 10. -/
def decimalVal (l : List Char) : Nat :=
  l.foldl (fun a c => a * 10 + digitVal c) 0

def daysInMonth (y m : Nat) : Nat :=
  if m = 2 then
    if y % 4 = 0 && (! (y % 100 = 0) || y % 400 = 0) then 29 else 28
  else if m = 4 || m = 6 || m = 9 || m = 11 then 30
  else 31

/-- Matches of the month pattern `1[0-2]|0[1-9]|[1-9]` at the head of the
input, in regex alternation priority order, each with the rest of the
input. -/
def monthCands : List Char → List (Nat × List Char)
  | c1 :: c2 :: rest =>
    (if c1 = '1' && (c2 = '0' || c2 = '1' || c2 = '2') then
      [(10 + digitVal c2, rest)] else []) ++
    (if c1 = '0' && (isDigitCh c2 && !(c2 = '0')) then
      [(digitVal c2, rest)] else []) ++
    (if isDigitCh c1 && !(c1 = '0') then [(digitVal c1, c2 :: rest)] else [])
  | [c1] =>
    if isDigitCh c1 && !(c1 = '0') then [(digitVal c1, [])] else []
  | [] => []

/-- First match of the day pattern `3[01]|[12]\d|0[1-9]|[1-9]` at the head
of the input (regex alternation priority), with the rest of the input. -/
def dayMatch : List Char → Option (Nat × List Char)
  | c1 :: c2 :: rest =>
    if c1 = '3' && (c2 = '0' || c2 = '1') then some (30 + digitVal c2, rest)
    else if (c1 = '1' || c1 = '2') && isDigitCh c2 then
      some (digitVal c1 * 10 + digitVal c2, rest)
    else if c1 = '0' && (isDigitCh c2 && !(c2 = '0')) then
      some (digitVal c2, rest)
    else if isDigitCh c1 && !(c1 = '0') then some (digitVal c1, c2 :: rest)
    else none
  | [c1] =>
    if isDigitCh c1 && !(c1 = '0') then some (digitVal c1, []) else none
  | [] => none

/-- The month-day part of the `%Y%m%d` regex match: the first (in
backtracking priority order) month candidate whose remainder admits a day
match, together with the unconsumed remainder. -/
def regexMD (r : List Char) : Option (Nat × Nat × List Char) :=
  (monthCands r).findSome? (fun mc =>
    (dayMatch mc.2).map (fun dc => (mc.1, dc.1, dc.2)))

/-- `datetime.strptime(s, "%Y%m%d")`: four year digits, then the regex
month/day match, which must consume the whole string ("unconverted data
remains" otherwise), then calendar validation by the `datetime`
constructor. -/
def strptimeYmd (s : String) : Option (Nat × Nat × Nat) :=
  match s.data with
  | y1 :: y2 :: y3 :: y4 :: rest =>
    if isDigitCh y1 && isDigitCh y2 && isDigitCh y3 && isDigitCh y4 then
      let y := ((digitVal y1 * 10 + digitVal y2) * 10 + digitVal y3) * 10
        + digitVal y4
      (regexMD rest).bind (fun mdl =>
        if mdl.2.2 = [] then
          if 1 ≤ y ∧ mdl.2.1 ≤ daysInMonth y mdl.1 then some (y, mdl.1, mdl.2.1)
          else none
        else none)
    else none
  | _ => none

/-- What `strptimeYmd` amounts to on an all-digit 8-character input
(proved below): month and day are read as two digits each and the
calendar validity conditions are checked. -/
def ymdCheck (y m d : Nat) : Option (Nat × Nat × Nat) :=
  if 1 ≤ m ∧ m ≤ 12 ∧ 1 ≤ d ∧ d ≤ 31 ∧ 1 ≤ y ∧ d ≤ daysInMonth y m then
    some (y, m, d)
  else none

/-- Date parse following the spec's words, for comparison with the code:
the slice is read strictly as year(4)+month(2)+day(2), failing on wrong
length, non-digit characters, and invalid calendar dates. -/
def specDateStrict (s : String) : Option (Nat × Nat × Nat) :=
  match s.data with
  | [y1, y2, y3, y4, m1, m2, d1, d2] =>
    if isDigitCh y1 && isDigitCh y2 && isDigitCh y3 && isDigitCh y4 &&
        isDigitCh m1 && isDigitCh m2 && isDigitCh d1 && isDigitCh d2 then
      let y := ((digitVal y1 * 10 + digitVal y2) * 10 + digitVal y3) * 10
        + digitVal y4
      let m := 10 * digitVal m1 + digitVal m2
      let d := 10 * digitVal d1 + digitVal d2
      if 1 ≤ y ∧ 1 ≤ m ∧ m ≤ 12 ∧ 1 ≤ d ∧ d ≤ daysInMonth y m then
        some (y, m, d)
      else none
    else none
  | _ => none

def pad2 (n : Nat) : String :=
  if n < 10 then "0" ++ toString n else toString n

def pad4 (n : Nat) : String :=
  if n < 10 then "000" ++ toString n
  else if n < 100 then "00" ++ toString n
  else if n < 1000 then "0" ++ toString n
  else toString n

/-- `dt.strftime("%Y-%m-%d")`. -/
def isoFormat (y m d : Nat) : String :=
  pad4 y ++ "-" ++ pad2 m ++ "-" ++ pad2 d

/-- The date conversion block of `parse_line`: `strptime` then
`strftime`, falling back to the raw slice on any exception. -/
def formatDate (raw : String) : String :=
  match strptimeYmd raw with
  | some (y, m, d) => isoFormat y m d
  | none => raw

/-- The dictionary returned by `parse_line`, field for field. -/
structure Registro where
  codigo_registro : String
  data_pregao : String
  codigo_mercado : String
  ativo : String
  codigo_bdi : String
  nome : String
  especificador : String
  identificacao_mercado : String
  moeda_cotacao : String
  preco_abertura : Option ℚ
  preco_maximo : Option ℚ
  preco_minimo : Option ℚ
  preco_fechamento : Option ℚ
  preco_melhor_compra : Option ℚ
  preco_melhor_venda : Option ℚ
  numero_negocios : Int
  quantidade_acoes : Int
  volume_financeiro : Option ℚ
  preco_fechamento_ajustado : Option ℚ
  fator_ajuste : Int
  codigo_papel_registro : String
  deriving Repr, DecidableEq

/-- `parse_line` from `src/converte_base.py`. -/
def parse_line (line : String) : Registro where
  codigo_registro := pySlice line 0 2
  data_pregao := formatDate (pySlice line 2 10)
  codigo_mercado := pySlice line 10 12
  ativo := pyStrip (pySlice line 12 24)
  codigo_bdi := pySlice line 24 27
  nome := pyStrip (pySlice line 27 39)
  especificador := pyStrip (pySlice line 39 47)
  identificacao_mercado := pyStrip (pySlice line 47 52)
  moeda_cotacao := pyStrip (pySlice line 52 56)
  preco_abertura := convert_price (pySlice line 56 69)
  preco_maximo := convert_price (pySlice line 69 82)
  preco_minimo := convert_price (pySlice line 82 95)
  preco_fechamento := convert_price (pySlice line 95 108)
  preco_melhor_compra := convert_price (pySlice line 108 121)
  preco_melhor_venda := convert_price (pySlice line 121 134)
  numero_negocios := pyIntD (pySlice line 134 141)
  quantidade_acoes := pyIntD (pySlice line 141 157)
  volume_financeiro := convert_price (pySlice line 157 173)
  preco_fechamento_ajustado := convert_price (pySlice line 173 186)
  fator_ajuste := pyIntD (pySlice line 186 190)
  codigo_papel_registro :=
    if 190 < line.length then pyStrip (pyDrop line 190) else ""

/-- State of the extraction loop in `main`: the accepted-record counter
`linhas_processadas`, the rows written so far, and whether the inner
`break` has fired. -/
structure PState where
  count : Nat
  out : List Registro
  stopped : Bool
  deriving Repr, DecidableEq

/-- One iteration of the inner `for line in infile` loop of `main` (a
fired `break` makes the remaining iterations no-ops). -/
def stepLine (ativos : List String) (limit : Option Int) (st : PState)
    (line : String) : PState :=
  if st.stopped then st
  else if line.length < 2 then st
  else if pySlice line 0 2 ≠ "01" then st
  else
    let r := parse_line line
    if r.ativo ∉ ativos then st
    else
      let st2 : PState := ⟨st.count + 1, st.out ++ [r], false⟩
      match limit with
      | some l => if l ≤ (st2.count : Int) then ⟨st2.count, st2.out, true⟩ else st2
      | none => st2

/-- The inner loop of `main` over the lines of one input file. -/
def runFile (ativos : List String) (limit : Option Int) (st : PState)
    (lines : List String) : PState :=
  lines.foldl (stepLine ativos limit) st

/-- The outer loop of `main` over the input files, with the
limit-reached break that skips the remaining files. -/
def runFiles (ativos : List String) (limit : Option Int) (st : PState) :
    List (List String) → PState
  | [] => st
  | f :: fs =>
    let st2 := runFile ativos limit st f
    match limit with
    | some l => if l ≤ (st2.count : Int) then st2 else runFiles ativos limit st2 fs
    | none => runFiles ativos limit st2 fs

/-- The extraction pipeline of `main`: files (as line lists) in, accepted
records and their count out. -/
def extract (files : List (List String)) (ativos : List String)
    (limit : Option Int) : PState :=
  runFiles ativos limit ⟨0, [], false⟩ files

theorem char_eq_of_toNat_eq {a b : Char} (h : a.toNat = b.toNat) : a = b :=
  Char.eq_of_val_eq (UInt32.toNat.inj h)

theorem isDigitCh_bounds {c : Char} (h : isDigitCh c = true) :
    48 ≤ c.toNat ∧ c.toNat ≤ 57 := by
  simpa [isDigitCh, Bool.and_eq_true, decide_eq_true_eq] using h

theorem digit_char_cases {c : Char} (h : isDigitCh c = true) :
    c = '0' ∨ c = '1' ∨ c = '2' ∨ c = '3' ∨ c = '4' ∨ c = '5' ∨ c = '6' ∨
      c = '7' ∨ c = '8' ∨ c = '9' := by
  obtain ⟨h1, h2⟩ := isDigitCh_bounds h
  have e : c.toNat = 48 ∨ c.toNat = 49 ∨ c.toNat = 50 ∨ c.toNat = 51 ∨
      c.toNat = 52 ∨ c.toNat = 53 ∨ c.toNat = 54 ∨ c.toNat = 55 ∨
      c.toNat = 56 ∨ c.toNat = 57 := by omega
  rcases e with e|e|e|e|e|e|e|e|e|e
  · exact Or.inl (char_eq_of_toNat_eq e)
  · exact Or.inr (Or.inl (char_eq_of_toNat_eq e))
  · exact Or.inr (Or.inr (Or.inl (char_eq_of_toNat_eq e)))
  · exact Or.inr (Or.inr (Or.inr (Or.inl (char_eq_of_toNat_eq e))))
  · exact Or.inr (Or.inr (Or.inr (Or.inr (Or.inl (char_eq_of_toNat_eq e)))))
  · exact Or.inr (Or.inr (Or.inr (Or.inr (Or.inr (Or.inl
      (char_eq_of_toNat_eq e))))))
  · exact Or.inr (Or.inr (Or.inr (Or.inr (Or.inr (Or.inr (Or.inl
      (char_eq_of_toNat_eq e)))))))
  · exact Or.inr (Or.inr (Or.inr (Or.inr (Or.inr (Or.inr (Or.inr (Or.inl
      (char_eq_of_toNat_eq e))))))))
  · exact Or.inr (Or.inr (Or.inr (Or.inr (Or.inr (Or.inr (Or.inr (Or.inr
      (Or.inl (char_eq_of_toNat_eq e)))))))))
  · exact Or.inr (Or.inr (Or.inr (Or.inr (Or.inr (Or.inr (Or.inr (Or.inr
      (Or.inr (char_eq_of_toNat_eq e)))))))))

theorem digit_not_ws {c : Char} (h : isDigitCh c = true) : isPyWS c = false := by
  rcases digit_char_cases h with rfl|rfl|rfl|rfl|rfl|rfl|rfl|rfl|rfl|rfl <;> rfl

theorem nondigit_ne {c d : Char} (h : isDigitCh c = false)
    (hd : isDigitCh d = true) : c ≠ d := by
  intro e
  rw [e, hd] at h
  exact absurd h (by decide)

theorem dropWhile_eq_self_of_forall {p : Char → Bool} {l : List Char}
    (h : ∀ c ∈ l, p c = false) : l.dropWhile p = l := by
  cases l with
  | nil => rfl
  | cons c cs => simp [List.dropWhile_cons, h c (List.mem_cons_self c cs)]

theorem dropWhile_eq_nil_of_forall {p : Char → Bool} {l : List Char}
    (h : ∀ c ∈ l, p c = true) : l.dropWhile p = [] := by
  induction l with
  | nil => rfl
  | cons c cs ih =>
    simp [List.dropWhile_cons, h c (List.mem_cons_self c cs),
      ih (fun x hx => h x (List.mem_cons_of_mem c hx))]

theorem pyStripList_eq_self {l : List Char} (h : ∀ c ∈ l, isPyWS c = false) :
    pyStripList l = l := by
  have h1 : l.dropWhile isPyWS = l := dropWhile_eq_self_of_forall h
  have h2 : l.reverse.dropWhile isPyWS = l.reverse :=
    dropWhile_eq_self_of_forall (fun c hc => h c (List.mem_reverse.mp hc))
  simp [pyStripList, h1, h2]

theorem pyStripList_all_ws {l : List Char} (h : ∀ c ∈ l, isPyWS c = true) :
    pyStripList l = [] := by
  simp [pyStripList, dropWhile_eq_nil_of_forall h]

theorem digitsRun_digits {l : List Char} (h : ∀ c ∈ l, isDigitCh c = true) :
    ∀ acc : Nat,
      digitsRun l acc = some (l.foldl (fun a c => a * 10 + digitVal c) acc) := by
  induction l with
  | nil => intro acc; rfl
  | cons c cs ih =>
    intro acc
    rw [digitsRun.eq_def]
    simp [h c (List.mem_cons_self c cs),
      ih (fun x hx => h x (List.mem_cons_of_mem c hx))]

theorem digit_ne_plus {c : Char} (h : isDigitCh c = true) : c ≠ '+' := by
  rcases digit_char_cases h with rfl|rfl|rfl|rfl|rfl|rfl|rfl|rfl|rfl|rfl <;> decide

theorem digit_ne_minus {c : Char} (h : isDigitCh c = true) : c ≠ '-' := by
  rcases digit_char_cases h with rfl|rfl|rfl|rfl|rfl|rfl|rfl|rfl|rfl|rfl <;> decide

theorem pyInt_digits {s : String} (hne : s.data ≠ [])
    (h : ∀ c ∈ s.data, isDigitCh c = true) :
    pyInt s = some ((decimalVal s.data : Nat) : Int) := by
  unfold pyInt
  rw [pyStripList_eq_self (fun c hc => digit_not_ws (h c hc))]
  rcases hd : s.data with _ | ⟨c, cs⟩
  · exact absurd hd hne
  · rw [hd] at h
    have hc : isDigitCh c = true := h c (List.mem_cons_self c cs)
    rw [pyIntList, if_neg (digit_ne_plus hc), if_neg (digit_ne_minus hc)]
    rw [digitsVal, if_pos hc,
      digitsRun_digits (fun x hx => h x (List.mem_cons_of_mem c hx))]
    simp [decimalVal]

theorem pyInt_some_or_none (s : String) :
    pyInt s = none ∨ ∃ n : Int, pyInt s = some n := by
  cases h : pyInt s with
  | none => exact Or.inl rfl
  | some n => exact Or.inr ⟨n, rfl⟩

theorem convert_price_eq_map (s : String) :
    convert_price s = (pyInt s).map (fun n => (n : ℚ) / 100) := rfl

theorem convert_price_none {s : String} (h : pyInt s = none) :
    convert_price s = none := by
  simp [convert_price, h]

theorem convert_price_some {s : String} {n : Int} (h : pyInt s = some n) :
    convert_price s = some ((n : ℚ) / 100) := by
  simp [convert_price, h]

theorem pyIntD_none {s : String} (h : pyInt s = none) : pyIntD s = 0 := by
  simp [pyIntD, h]

theorem pyIntD_some {s : String} {n : Int} (h : pyInt s = some n) :
    pyIntD s = n := by
  simp [pyIntD, h]

theorem pySlice_length_le (s : String) (a b : Nat) :
    (pySlice s a b).length ≤ s.length ∧ (pySlice s a b).length ≤ b - a := by
  constructor
  · show ((s.data.take b).drop a).length ≤ s.data.length
    simp only [List.length_drop, List.length_take]
    omega
  · show ((s.data.take b).drop a).length ≤ b - a
    simp only [List.length_drop, List.length_take]
    omega

theorem pySlice_of_start_ge (s : String) (a b : Nat) (h : s.length ≤ a) :
    pySlice s a b = "" := by
  show String.mk ((s.data.take b).drop a) = ""
  have hlen : (s.data.take b).length ≤ a := by
    have := s.data.length_take b
    have hs : s.data.length = s.length := rfl
    omega
  rw [List.drop_eq_nil_iff.mpr hlen]

theorem monthCands_digits {c1 c2 : Char} (h1 : isDigitCh c1 = true)
    (h2 : isDigitCh c2 = true) (rest : List Char) :
    monthCands (c1 :: c2 :: rest) =
      (if 1 ≤ 10 * digitVal c1 + digitVal c2 ∧
          10 * digitVal c1 + digitVal c2 ≤ 12 then
        [(10 * digitVal c1 + digitVal c2, rest)] else []) ++
      (if 1 ≤ digitVal c1 then [(digitVal c1, c2 :: rest)] else []) := by
  rcases digit_char_cases h1 with rfl|rfl|rfl|rfl|rfl|rfl|rfl|rfl|rfl|rfl <;>
    rcases digit_char_cases h2 with rfl|rfl|rfl|rfl|rfl|rfl|rfl|rfl|rfl|rfl <;>
    rfl

theorem dayMatch_digits {c1 c2 : Char} (h1 : isDigitCh c1 = true)
    (h2 : isDigitCh c2 = true) :
    dayMatch [c1, c2] =
      (if 1 ≤ 10 * digitVal c1 + digitVal c2 ∧
          10 * digitVal c1 + digitVal c2 ≤ 31 then
        some (10 * digitVal c1 + digitVal c2, [])
      else if 1 ≤ digitVal c1 then some (digitVal c1, [c2]) else none) := by
  rcases digit_char_cases h1 with rfl|rfl|rfl|rfl|rfl|rfl|rfl|rfl|rfl|rfl <;>
    rcases digit_char_cases h2 with rfl|rfl|rfl|rfl|rfl|rfl|rfl|rfl|rfl|rfl <;>
    rfl

theorem dayMatch_three {x y z : Char} {rest : List Char} {v : Nat}
    {l : List Char} (h : dayMatch (x :: y :: z :: rest) = some (v, l)) :
    l ≠ [] := by
  rw [dayMatch.eq_def] at h
  simp only at h
  split_ifs at h <;> (obtain ⟨-, rfl⟩ := h; simp)

theorem dayMatch_nd1 {x : Char} (h : isDigitCh x = false) (l : List Char) :
    dayMatch (x :: l) = none := by
  have n3 : x ≠ '3' := nondigit_ne h (by decide)
  have n1 : x ≠ '1' := nondigit_ne h (by decide)
  have n2 : x ≠ '2' := nondigit_ne h (by decide)
  have n0 : x ≠ '0' := nondigit_ne h (by decide)
  cases l with
  | nil => simp [dayMatch, h]
  | cons y l' => simp [dayMatch, h, n3, n1, n2, n0]

theorem dayMatch_nd2 {y : Char} (h : isDigitCh y = false) (x : Char)
    (rest : List Char) :
    dayMatch (x :: y :: rest) =
      (if isDigitCh x = true ∧ ¬x = '0' then some (digitVal x, y :: rest)
       else none) := by
  have n0 : y ≠ '0' := nondigit_ne h (by decide)
  have n1 : y ≠ '1' := nondigit_ne h (by decide)
  simp [dayMatch, h, n0, n1, Bool.and_eq_true, decide_eq_true_eq]

theorem monthCands_nd1 {c1 : Char} (h : isDigitCh c1 = false) (c2 : Char)
    (rest : List Char) : monthCands (c1 :: c2 :: rest) = [] := by
  have n1 : c1 ≠ '1' := nondigit_ne h (by decide)
  have n0 : c1 ≠ '0' := nondigit_ne h (by decide)
  simp [monthCands, h, n1, n0]

theorem monthCands_nd2 {c2 : Char} (h : isDigitCh c2 = false) (c1 : Char)
    (rest : List Char) :
    monthCands (c1 :: c2 :: rest) =
      (if isDigitCh c1 = true ∧ ¬c1 = '0' then [(digitVal c1, c2 :: rest)]
       else []) := by
  have n0 : c2 ≠ '0' := nondigit_ne h (by decide)
  have n1 : c2 ≠ '1' := nondigit_ne h (by decide)
  have n2 : c2 ≠ '2' := nondigit_ne h (by decide)
  simp [monthCands, h, n0, n1, n2, Bool.and_eq_true, decide_eq_true_eq]

theorem daysInMonth_le_31 (y m : Nat) : daysInMonth y m ≤ 31 := by
  unfold daysInMonth
  split_ifs <;> omega

theorem bind_full_none {α : Type} {o : Option (Nat × Nat × List Char)}
    (H : ∀ r, o = some r → r.2.2 ≠ [])
    (G : Nat × Nat × List Char → Option α) :
    o.bind (fun mdl => if mdl.2.2 = [] then G mdl else none) = none := by
  cases ho : o with
  | none => rfl
  | some r => simp [if_neg (H r ho)]

theorem findSomeM1_no_full {c5 c6 c7 c8 : Char} :
    ∀ r, ((if 1 ≤ digitVal c5 then [(digitVal c5, [c6, c7, c8])] else []).findSome?
        (fun mc => (dayMatch mc.2).map (fun dc => (mc.1, dc.1, dc.2)))) = some r →
      r.2.2 ≠ [] := by
  intro r hr
  by_cases h5p : 1 ≤ digitVal c5
  · rw [if_pos h5p] at hr
    rcases hdm : dayMatch [c6, c7, c8] with _ | ⟨v, l⟩
    · simp [List.findSome?_cons, hdm] at hr
    · have hl : l ≠ [] := dayMatch_three hdm
      simp [List.findSome?_cons, hdm] at hr
      subst hr
      exact hl
  · rw [if_neg h5p] at hr
    simp at hr

theorem ymdCheck_none_of_bad_day {y m d : Nat} (h : ¬(1 ≤ d ∧ d ≤ 31)) :
    ymdCheck y m d = none := by
  unfold ymdCheck
  exact if_neg (fun hc => h ⟨hc.2.2.1, hc.2.2.2.1⟩)

theorem ymdCheck_none_of_bad_month {y m d : Nat} (h : ¬(1 ≤ m ∧ m ≤ 12)) :
    ymdCheck y m d = none := by
  unfold ymdCheck
  exact if_neg (fun hc => h ⟨hc.1, hc.2.1⟩)

theorem specDateStrict_nd {c1 c2 c3 c4 c5 c6 c7 c8 : Char}
    (h : (isDigitCh c1 && isDigitCh c2 && isDigitCh c3 && isDigitCh c4 &&
      isDigitCh c5 && isDigitCh c6 && isDigitCh c7 && isDigitCh c8) = false) :
    specDateStrict ⟨[c1, c2, c3, c4, c5, c6, c7, c8]⟩ = none := by
  rw [specDateStrict.eq_def]
  dsimp only
  rw [if_neg (by simp [h])]

theorem specDateStrict_digits8 {c1 c2 c3 c4 c5 c6 c7 c8 : Char}
    (h1 : isDigitCh c1 = true) (h2 : isDigitCh c2 = true)
    (h3 : isDigitCh c3 = true) (h4 : isDigitCh c4 = true)
    (h5 : isDigitCh c5 = true) (h6 : isDigitCh c6 = true)
    (h7 : isDigitCh c7 = true) (h8 : isDigitCh c8 = true) :
    specDateStrict ⟨[c1, c2, c3, c4, c5, c6, c7, c8]⟩ =
      (if 1 ≤ ((digitVal c1 * 10 + digitVal c2) * 10 + digitVal c3) * 10 +
            digitVal c4 ∧
          1 ≤ 10 * digitVal c5 + digitVal c6 ∧
          10 * digitVal c5 + digitVal c6 ≤ 12 ∧
          1 ≤ 10 * digitVal c7 + digitVal c8 ∧
          10 * digitVal c7 + digitVal c8 ≤
            daysInMonth
              (((digitVal c1 * 10 + digitVal c2) * 10 + digitVal c3) * 10 +
                digitVal c4)
              (10 * digitVal c5 + digitVal c6) then
        some
          (((digitVal c1 * 10 + digitVal c2) * 10 + digitVal c3) * 10 +
              digitVal c4,
            10 * digitVal c5 + digitVal c6, 10 * digitVal c7 + digitVal c8)
      else none) := by
  rw [specDateStrict.eq_def]
  dsimp only
  rw [if_pos (by simp [h1, h2, h3, h4, h5, h6, h7, h8])]

theorem strptimeYmd_digits8 {c1 c2 c3 c4 c5 c6 c7 c8 : Char}
    (h1 : isDigitCh c1 = true) (h2 : isDigitCh c2 = true)
    (h3 : isDigitCh c3 = true) (h4 : isDigitCh c4 = true)
    (h5 : isDigitCh c5 = true) (h6 : isDigitCh c6 = true)
    (h7 : isDigitCh c7 = true) (h8 : isDigitCh c8 = true) :
    strptimeYmd ⟨[c1, c2, c3, c4, c5, c6, c7, c8]⟩ =
      ymdCheck
        (((digitVal c1 * 10 + digitVal c2) * 10 + digitVal c3) * 10 + digitVal c4)
        (10 * digitVal c5 + digitVal c6) (10 * digitVal c7 + digitVal c8) := by
  have hy : (isDigitCh c1 && isDigitCh c2 && isDigitCh c3 && isDigitCh c4) = true := by
    simp [h1, h2, h3, h4]
  rw [strptimeYmd.eq_def]
  dsimp only
  rw [if_pos hy, regexMD, monthCands_digits h5 h6 [c7, c8]]
  by_cases hm : 1 ≤ 10 * digitVal c5 + digitVal c6 ∧
      10 * digitVal c5 + digitVal c6 ≤ 12
  · rw [if_pos hm, List.singleton_append, List.findSome?_cons]
    by_cases hd : 1 ≤ 10 * digitVal c7 + digitVal c8 ∧
        10 * digitVal c7 + digitVal c8 ≤ 31
    · rw [show dayMatch ((10 * digitVal c5 + digitVal c6, [c7, c8]) :
          Nat × List Char).2 = dayMatch [c7, c8] from rfl,
        dayMatch_digits h7 h8, if_pos hd]
      rw [ymdCheck]
      simp only [hm.1, hm.2, hd.1, hd.2, true_and]
      simp
    · rw [ymdCheck_none_of_bad_day hd]
      rw [show dayMatch ((10 * digitVal c5 + digitVal c6, [c7, c8]) :
          Nat × List Char).2 = dayMatch [c7, c8] from rfl,
        dayMatch_digits h7 h8, if_neg hd]
      by_cases h7p : 1 ≤ digitVal c7
      · rw [if_pos h7p]
        simp
      · rw [if_neg h7p]
        exact bind_full_none findSomeM1_no_full _
  · rw [ymdCheck_none_of_bad_month hm, if_neg hm, List.nil_append]
    exact bind_full_none findSomeM1_no_full _

theorem strptime_eq_strict8 {s : String} (h : s.length = 8) :
    strptimeYmd s = specDateStrict s := by
  obtain ⟨l⟩ := s
  have hl : l.length = 8 := h
  rcases l with _ | ⟨c1, l⟩; · simp at hl
  rcases l with _ | ⟨c2, l⟩; · simp at hl
  rcases l with _ | ⟨c3, l⟩; · simp at hl
  rcases l with _ | ⟨c4, l⟩; · simp at hl
  rcases l with _ | ⟨c5, l⟩; · simp at hl
  rcases l with _ | ⟨c6, l⟩; · simp at hl
  rcases l with _ | ⟨c7, l⟩; · simp at hl
  rcases l with _ | ⟨c8, l⟩; · simp at hl
  rcases l with _ | ⟨c9, l⟩
  case cons => simp at hl
  by_cases hy : (isDigitCh c1 && isDigitCh c2 && isDigitCh c3 && isDigitCh c4) = true
  case neg =>
    have hyf : (isDigitCh c1 && isDigitCh c2 && isDigitCh c3 && isDigitCh c4) = false := by
      simpa using hy
    rw [specDateStrict_nd (by simp [hyf]), strptimeYmd.eq_def]
    dsimp only
    rw [if_neg hy]
  case pos =>
    have hp := hy
    simp only [Bool.and_eq_true] at hp
    obtain ⟨⟨⟨h1, h2⟩, h3⟩, h4⟩ := hp
    by_cases h5 : isDigitCh c5 = true
    · by_cases h6 : isDigitCh c6 = true
      · by_cases h7 : isDigitCh c7 = true
        · by_cases h8 : isDigitCh c8 = true
          · rw [strptimeYmd_digits8 h1 h2 h3 h4 h5 h6 h7 h8,
              specDateStrict_digits8 h1 h2 h3 h4 h5 h6 h7 h8, ymdCheck]
            have h31 := daysInMonth_le_31
              (((digitVal c1 * 10 + digitVal c2) * 10 + digitVal c3) * 10 +
                digitVal c4) (10 * digitVal c5 + digitVal c6)
            split_ifs <;> first | rfl | omega
          · have h8f : isDigitCh c8 = false := by simpa using h8
            rw [specDateStrict_nd (by simp [h8f]), strptimeYmd.eq_def]
            dsimp only
            rw [if_pos hy, regexMD, monthCands_digits h5 h6 [c7, c8]]
            by_cases hm : 1 ≤ 10 * digitVal c5 + digitVal c6 ∧
                10 * digitVal c5 + digitVal c6 ≤ 12
            · rw [if_pos hm, List.singleton_append, List.findSome?_cons]
              rw [show dayMatch ((10 * digitVal c5 + digitVal c6, [c7, c8]) :
                  Nat × List Char).2 = dayMatch [c7, c8] from rfl,
                dayMatch_nd2 h8f c7 []]
              by_cases h7z : isDigitCh c7 = true ∧ ¬c7 = '0'
              · rw [if_pos h7z]
                simp
              · rw [if_neg h7z]
                exact bind_full_none findSomeM1_no_full _
            · rw [if_neg hm, List.nil_append]
              exact bind_full_none findSomeM1_no_full _
        · have h7f : isDigitCh c7 = false := by simpa using h7
          rw [specDateStrict_nd (by simp [h7f]), strptimeYmd.eq_def]
          dsimp only
          rw [if_pos hy, regexMD, monthCands_digits h5 h6 [c7, c8]]
          by_cases hm : 1 ≤ 10 * digitVal c5 + digitVal c6 ∧
              10 * digitVal c5 + digitVal c6 ≤ 12
          · rw [if_pos hm, List.singleton_append, List.findSome?_cons]
            rw [show dayMatch ((10 * digitVal c5 + digitVal c6, [c7, c8]) :
                Nat × List Char).2 = dayMatch [c7, c8] from rfl,
              dayMatch_nd1 h7f [c8]]
            exact bind_full_none findSomeM1_no_full _
          · rw [if_neg hm, List.nil_append]
            exact bind_full_none findSomeM1_no_full _
      · have h6f : isDigitCh c6 = false := by simpa using h6
        rw [specDateStrict_nd (by simp [h6f]), strptimeYmd.eq_def]
        dsimp only
        rw [if_pos hy, regexMD, monthCands_nd2 h6f c5 [c7, c8]]
        by_cases h5z : isDigitCh c5 = true ∧ ¬c5 = '0'
        · rw [if_pos h5z, List.findSome?_cons]
          rw [show dayMatch ((digitVal c5, [c6, c7, c8]) :
              Nat × List Char).2 = dayMatch [c6, c7, c8] from rfl,
            dayMatch_nd1 h6f [c7, c8]]
          simp
        · rw [if_neg h5z]
          simp
    · have h5f : isDigitCh c5 = false := by simpa using h5
      rw [specDateStrict_nd (by simp [h5f]), strptimeYmd.eq_def]
      dsimp only
      rw [if_pos hy, regexMD, monthCands_nd1 h5f c6 [c7, c8]]
      simp

/-- C3: every price/volume field of `parse_line` is `convert_price` of its
slice; a slice that is a base-10 integer decodes to that integer divided
by 100, non-integer content decodes to the absent marker `none` (never
zero); `"0000001050"` decodes to 10.50 and an all-space slice to absent. -/
theorem price_fields (line : String) :
    ((parse_line line).preco_abertura = convert_price (pySlice line 56 69) ∧
     (parse_line line).preco_maximo = convert_price (pySlice line 69 82) ∧
     (parse_line line).preco_minimo = convert_price (pySlice line 82 95) ∧
     (parse_line line).preco_fechamento = convert_price (pySlice line 95 108) ∧
     (parse_line line).preco_melhor_compra =
       convert_price (pySlice line 108 121) ∧
     (parse_line line).preco_melhor_venda =
       convert_price (pySlice line 121 134) ∧
     (parse_line line).preco_fechamento_ajustado =
       convert_price (pySlice line 173 186) ∧
     (parse_line line).volume_financeiro =
       convert_price (pySlice line 157 173)) ∧
    (∀ s : String, s.data ≠ [] → (∀ c ∈ s.data, isDigitCh c = true) →
      convert_price s = some ((decimalVal s.data : ℚ) / 100)) ∧
    (∀ s : String, ∀ n : Int, pyInt s = some n →
      convert_price s = some ((n : ℚ) / 100)) ∧
    (∀ s : String, pyInt s = none →
      convert_price s = none ∧ convert_price s ≠ some 0) ∧
    convert_price "0000001050" = some (10.50 : ℚ) ∧
    convert_price "          " = none := by
  refine ⟨⟨rfl, rfl, rfl, rfl, rfl, rfl, rfl, rfl⟩, ?_, ?_, ?_, ?_, ?_⟩
  · intro s hne hdig
    rw [convert_price_some (pyInt_digits hne hdig)]
    congr 1
  · intro s n hp
    exact convert_price_some hp
  · intro s hnone
    refine ⟨convert_price_none hnone, ?_⟩
    rw [convert_price_none hnone]
    simp
  · rw [convert_price_some (show pyInt "0000001050" = some 1050 by decide)]
    norm_num
  · exact convert_price_none (by decide)

/-- C5: the three integer fields of `parse_line` are `int(slice)` with a
default of 0 on unparseable content (while price fields fall back to the
absent marker instead: the asymmetry is real). -/
theorem integer_fields (line : String) :
    ((parse_line line).numero_negocios = pyIntD (pySlice line 134 141) ∧
     (parse_line line).quantidade_acoes = pyIntD (pySlice line 141 157) ∧
     (parse_line line).fator_ajuste = pyIntD (pySlice line 186 190)) ∧
    (∀ s : String, ∀ n : Int, pyInt s = some n → pyIntD s = n) ∧
    (∀ s : String, pyInt s = none → pyIntD s = 0) ∧
    (∀ s : String, s.data ≠ [] → (∀ c ∈ s.data, isDigitCh c = true) →
      pyIntD s = (decimalVal s.data : Int)) ∧
    pyIntD "  abc  " = 0 ∧
    (∀ s : String, pyInt s = none → convert_price s = none) := by
  refine ⟨⟨rfl, rfl, rfl⟩, ?_, ?_, ?_, ?_, ?_⟩
  · intro s n hp
    exact pyIntD_some hp
  · intro s hp
    exact pyIntD_none hp
  · intro s hne hdig
    exact pyIntD_some (pyInt_digits hne hdig)
  · decide
  · intro s hp
    exact convert_price_none hp

/-- C4 counterexample: on the 9-character line `"012024102"` the date
slice at offsets [2,10) is `"2024102"` of length 7, a wrong-length slice
that the claim says must fail and fall back to the raw slice; the code
instead decodes `trade_date` to `"2024-10-02"` because `strptime` lets
the month match a single digit. -/
theorem date_wrong_length_still_parses :
    (pySlice "012024102" 2 10).length = 7 ∧
    specDateStrict (pySlice "012024102" 2 10) = none ∧
    (parse_line "012024102").data_pregao = "2024-10-02" ∧
    (parse_line "012024102").data_pregao ≠ pySlice "012024102" 2 10 := by
  refine ⟨by decide, by decide, ?_, ?_⟩
  · decide
  · decide

/-- C4 (amended): `trade_date` is the `strptime`-then-`strftime`
conversion of the slice at [2,10): on a successful parse it is the
zero-padded ISO form of the parsed date, on failure the raw slice
unchanged; for slices of exactly 8 characters success coincides with the
strict year(4)+month(2)+day(2) reading with calendar validation, but
shorter slices can also parse successfully via one-digit month/day
matches.  `"20240102"` still decodes to `"2024-01-02"`. -/
theorem date_conversion (line : String) :
    (parse_line line).data_pregao = formatDate (pySlice line 2 10) ∧
    (∀ y m d : Nat, strptimeYmd (pySlice line 2 10) = some (y, m, d) →
      (parse_line line).data_pregao = isoFormat y m d) ∧
    (strptimeYmd (pySlice line 2 10) = none →
      (parse_line line).data_pregao = pySlice line 2 10) ∧
    ((pySlice line 2 10).length = 8 →
      strptimeYmd (pySlice line 2 10) = specDateStrict (pySlice line 2 10)) ∧
    (parse_line "0120240102").data_pregao = "2024-01-02" := by
  refine ⟨rfl, ?_, ?_, ?_, by decide⟩
  · intro y m d hs
    show formatDate (pySlice line 2 10) = isoFormat y m d
    rw [formatDate, hs]
  · intro hs
    show formatDate (pySlice line 2 10) = pySlice line 2 10
    rw [formatDate, hs]
  · intro hlen
    exact strptime_eq_strict8 hlen

/-- C6: the tail field `registered_security_code` is the trimmed text from
offset 190 when the line is longer than 190 characters and the empty
string otherwise; a length-150 line yields `""`, and a line whose trimmed
tail is `"BRVALE3ACNO"` yields exactly that text. -/
theorem tail_field (line : String) :
    (line.length ≤ 190 → (parse_line line).codigo_papel_registro = "") ∧
    (190 < line.length →
      (parse_line line).codigo_papel_registro = pyStrip (pyDrop line 190)) ∧
    ((parse_line line).codigo_papel_registro ≠ "" → 190 < line.length) ∧
    (line.length = 150 → (parse_line line).codigo_papel_registro = "") ∧
    (line.length = 195 → pyStrip (pyDrop line 190) = "BRVALE3ACNO" →
      (parse_line line).codigo_papel_registro = "BRVALE3ACNO") := by
  have hdef : (parse_line line).codigo_papel_registro =
      (if 190 < line.length then pyStrip (pyDrop line 190) else "") := rfl
  refine ⟨?_, ?_, ?_, ?_, ?_⟩
  · intro h
    rw [hdef, if_neg (by omega)]
  · intro h
    rw [hdef, if_pos h]
  · intro hne
    by_contra hle
    rw [hdef, if_neg hle] at hne
    exact hne rfl
  · intro h
    rw [hdef, if_neg (by omega)]
  · intro hlen htxt
    rw [hdef, if_pos (by omega), htxt]

/-- C1: decoding is total — `parse_line` is a function defined on every
line (the hypothesis only mirrors the claim's "length ≥ 2" wording);
every text field is the (trimmed) slice, the date falls back to the raw
slice when unparsable, every price field falls back to the absent marker
`none`, every integer field to 0, and slicing past the end of the line
clips to the available characters, the empty string if none. -/
theorem decode_total (line : String) (h : 2 ≤ line.length) :
    ((parse_line line).codigo_registro = pySlice line 0 2 ∧
     (parse_line line).codigo_mercado = pySlice line 10 12 ∧
     (parse_line line).ativo = pyStrip (pySlice line 12 24) ∧
     (parse_line line).codigo_bdi = pySlice line 24 27 ∧
     (parse_line line).nome = pyStrip (pySlice line 27 39) ∧
     (parse_line line).especificador = pyStrip (pySlice line 39 47) ∧
     (parse_line line).identificacao_mercado = pyStrip (pySlice line 47 52) ∧
     (parse_line line).moeda_cotacao = pyStrip (pySlice line 52 56)) ∧
    ((parse_line line).data_pregao = pySlice line 2 10 ∨
      ∃ y m d : Nat, strptimeYmd (pySlice line 2 10) = some (y, m, d) ∧
        (parse_line line).data_pregao = isoFormat y m d) ∧
    (∀ a b : Nat, convert_price (pySlice line a b) = none ∨
      ∃ n : Int, pyInt (pySlice line a b) = some n ∧
        convert_price (pySlice line a b) = some ((n : ℚ) / 100)) ∧
    ((parse_line line).numero_negocios = 0 ∨
      pyInt (pySlice line 134 141) = some (parse_line line).numero_negocios) ∧
    ((parse_line line).quantidade_acoes = 0 ∨
      pyInt (pySlice line 141 157) = some (parse_line line).quantidade_acoes) ∧
    ((parse_line line).fator_ajuste = 0 ∨
      pyInt (pySlice line 186 190) = some (parse_line line).fator_ajuste) ∧
    ((parse_line line).codigo_papel_registro = "" ∨ 190 < line.length) ∧
    (∀ a b : Nat, line.length ≤ a → pySlice line a b = "") ∧
    (∀ a b : Nat, (pySlice line a b).length ≤ line.length ∧
      (pySlice line a b).length ≤ b - a) := by
  refine ⟨⟨rfl, rfl, rfl, rfl, rfl, rfl, rfl, rfl⟩, ?_, ?_, ?_, ?_, ?_, ?_,
    ?_, ?_⟩
  · cases hs : strptimeYmd (pySlice line 2 10) with
    | none =>
      left
      show formatDate (pySlice line 2 10) = pySlice line 2 10
      rw [formatDate, hs]
    | some ymd =>
      obtain ⟨y, md⟩ := ymd
      obtain ⟨m, d⟩ := md
      right
      refine ⟨y, m, d, rfl, ?_⟩
      show formatDate (pySlice line 2 10) = _
      rw [formatDate, hs]
  · intro a b
    cases hp : pyInt (pySlice line a b) with
    | none => exact Or.inl (convert_price_none hp)
    | some n => exact Or.inr ⟨n, rfl, convert_price_some hp⟩
  · cases hp : pyInt (pySlice line 134 141) with
    | none =>
      exact Or.inl (pyIntD_none hp)
    | some n =>
      right
      show some n = some (pyIntD (pySlice line 134 141))
      rw [pyIntD_some hp]
  · cases hp : pyInt (pySlice line 141 157) with
    | none =>
      exact Or.inl (pyIntD_none hp)
    | some n =>
      right
      show some n = some (pyIntD (pySlice line 141 157))
      rw [pyIntD_some hp]
  · cases hp : pyInt (pySlice line 186 190) with
    | none =>
      exact Or.inl (pyIntD_none hp)
    | some n =>
      right
      show some n = some (pyIntD (pySlice line 186 190))
      rw [pyIntD_some hp]
  · by_cases h190 : 190 < line.length
    · exact Or.inr h190
    · left
      show (if 190 < line.length then pyStrip (pyDrop line 190) else "") = ""
      rw [if_neg h190]
  · intro a b ha
    exact pySlice_of_start_ge line a b ha
  · intro a b
    exact pySlice_length_le line a b

/-- C1 witness: the two-character line `"01"` satisfies the hypothesis
and decodes. -/
theorem decode_total_instance :
    2 ≤ ("01" : String).length ∧
      (parse_line "01").codigo_registro = pySlice "01" 0 2 :=
  ⟨by decide, (decode_total "01" (by decide)).1.1⟩

/-- C7: a line that is shorter than 2 characters or whose first two
characters are not "01" is skipped by the pipeline: the loop state (count
and output) is unchanged, exactly as if the line were absent. -/
theorem skip_bad_lines (ativos : List String) (limit : Option Int)
    (st : PState) (line : String) (rest : List String)
    (h : line.length < 2 ∨ pySlice line 0 2 ≠ "01") :
    stepLine ativos limit st line = st ∧
    runFile ativos limit st (line :: rest) = runFile ativos limit st rest := by
  have hstep : stepLine ativos limit st line = st := by
    unfold stepLine
    by_cases hs : st.stopped = true
    · rw [if_pos hs]
    · rw [if_neg hs]
      rcases h with h | h
      · rw [if_pos h]
      · by_cases hlen : line.length < 2
        · rw [if_pos hlen]
        · rw [if_neg hlen, if_pos h]
  refine ⟨hstep, ?_⟩
  show (line :: rest).foldl (stepLine ativos limit) st = _
  rw [List.foldl_cons, hstep]
  rfl

/-- C7 witness: the line `"0"` (length 1) is skipped. -/
theorem skip_bad_lines_instance :
    (("0" : String).length < 2 ∨ pySlice "0" 0 2 ≠ "01") ∧
      stepLine [] none ⟨0, [], false⟩ "0" = ⟨0, [], false⟩ :=
  ⟨by decide, (skip_bad_lines [] none ⟨0, [], false⟩ "0" [] (by decide)).1⟩

theorem stepLine_inv (ativos : List String) {l : Int} {st : PState}
    (h1 : (st.count : Int) ≤ l) (h2 : st.stopped = false → (st.count : Int) < l)
    (line : String) :
    ((stepLine ativos (some l) st line).count : Int) ≤ l ∧
      ((stepLine ativos (some l) st line).stopped = false →
        ((stepLine ativos (some l) st line).count : Int) < l) := by
  have hs' : st.stopped = true ∨ st.stopped = false := by
    cases st.stopped
    · exact Or.inr rfl
    · exact Or.inl rfl
  unfold stepLine
  by_cases hs : st.stopped = true
  · rw [if_pos hs]
    exact ⟨h1, h2⟩
  · have hfalse : st.stopped = false := by
      rcases hs' with h' | h'
      · exact absurd h' hs
      · exact h'
    have hlt : (st.count : Int) < l := h2 hfalse
    rw [if_neg hs]
    by_cases hl1 : line.length < 2
    · rw [if_pos hl1]
      exact ⟨h1, h2⟩
    · rw [if_neg hl1]
      by_cases hm : pySlice line 0 2 ≠ "01"
      · rw [if_pos hm]
        exact ⟨h1, h2⟩
      · rw [if_neg hm]
        dsimp only
        by_cases ha : (parse_line line).ativo ∉ ativos
        · rw [if_pos ha]
          exact ⟨h1, h2⟩
        · rw [if_neg ha]
          by_cases hlim : l ≤ ((st.count + 1 : Nat) : Int)
          · rw [if_pos hlim]
            constructor
            · show ((st.count + 1 : Nat) : Int) ≤ l
              push_cast
              omega
            · intro hff
              simp at hff
          · rw [if_neg hlim]
            constructor
            · show ((st.count + 1 : Nat) : Int) ≤ l
              push_cast at hlim ⊢
              omega
            · intro _
              show ((st.count + 1 : Nat) : Int) < l
              push_cast at hlim ⊢
              omega

theorem runFile_inv (ativos : List String) {l : Int} :
    ∀ (lines : List String) (st : PState),
      (st.count : Int) ≤ l → (st.stopped = false → (st.count : Int) < l) →
      ((runFile ativos (some l) st lines).count : Int) ≤ l ∧
        ((runFile ativos (some l) st lines).stopped = false →
          ((runFile ativos (some l) st lines).count : Int) < l) := by
  intro lines
  induction lines with
  | nil =>
    intro st hc1 hc2
    exact ⟨hc1, hc2⟩
  | cons line rest ih =>
    intro st hc1 hc2
    have hstep := stepLine_inv ativos hc1 hc2 line
    exact ih (stepLine ativos (some l) st line) hstep.1 hstep.2

theorem runFiles_count_le {ativos : List String} {l : Int} :
    ∀ (files : List (List String)) (st : PState),
      (st.count : Int) ≤ l → (st.stopped = false → (st.count : Int) < l) →
      ((runFiles ativos (some l) st files).count : Int) ≤ l := by
  intro files
  induction files with
  | nil =>
    intro st hc1 hc2
    exact hc1
  | cons f fs ih =>
    intro st hc1 hc2
    have hf := runFile_inv ativos f st hc1 hc2
    rw [runFiles]
    try dsimp only
    by_cases hlim : l ≤ ((runFile ativos (some l) st f).count : Int)
    · rw [if_pos hlim]
      exact hf.1
    · rw [if_neg hlim]
      exact ih (runFile ativos (some l) st f) hf.1 (fun _ => by omega)

theorem stepLine_outlen {ativos : List String} {limit : Option Int}
    {st : PState} (line : String) (h : st.out.length = st.count) :
    (stepLine ativos limit st line).out.length =
      (stepLine ativos limit st line).count := by
  unfold stepLine
  by_cases hs : st.stopped = true
  · rw [if_pos hs]
    exact h
  · rw [if_neg hs]
    by_cases hl1 : line.length < 2
    · rw [if_pos hl1]
      exact h
    · rw [if_neg hl1]
      by_cases hm : pySlice line 0 2 ≠ "01"
      · rw [if_pos hm]
        exact h
      · rw [if_neg hm]
        dsimp only
        by_cases ha : (parse_line line).ativo ∉ ativos
        · rw [if_pos ha]
          exact h
        · rw [if_neg ha]
          cases limit with
          | none => simp [h]
          | some l =>
            dsimp only
            by_cases hlim : l ≤ ((st.count + 1 : Nat) : Int)
            · rw [if_pos hlim]
              simp [h]
            · rw [if_neg hlim]
              simp [h]

theorem runFile_outlen (ativos : List String) (limit : Option Int) :
    ∀ (lines : List String) (st : PState), st.out.length = st.count →
      (runFile ativos limit st lines).out.length =
        (runFile ativos limit st lines).count := by
  intro lines
  induction lines with
  | nil =>
    intro st h
    exact h
  | cons line rest ih =>
    intro st h
    exact ih (stepLine ativos limit st line) (stepLine_outlen line h)

theorem runFiles_outlen {ativos : List String} {limit : Option Int} :
    ∀ (files : List (List String)) (st : PState), st.out.length = st.count →
      (runFiles ativos limit st files).out.length =
        (runFiles ativos limit st files).count := by
  intro files
  induction files with
  | nil =>
    intro st h
    exact h
  | cons f fs ih =>
    intro st h
    have hf := runFile_outlen ativos limit f st h
    cases limit with
    | none => exact ih (runFile ativos none st f) hf
    | some l =>
      rw [runFiles]
      try dsimp only
      by_cases hlim : l ≤ ((runFile ativos (some l) st f).count : Int)
      · rw [if_pos hlim]
        exact hf
      · rw [if_neg hlim]
        exact ih (runFile ativos (some l) st f) hf

/-- C2 counterexample: with `limit = 0` set (a value `--limit` accepts),
the pipeline still writes one matching record, because the stop condition
is checked only after an accepted write; so "never writes more records
than limit" fails for limit 0. -/
theorem limit_zero_writes_one :
    (extract [["012024010202VALE3       "]] ["VALE3"] (some 0)).count = 1 ∧
    ¬((extract [["012024010202VALE3       "]] ["VALE3"] (some 0)).count ≤ 0) := by
  refine ⟨by decide, by decide⟩

/-- C2 (amended): for every positive limit, the pipeline never writes
more records than the limit; once the inner break has fired no further
line changes the state, and once a file ends with the count at or above
the limit the remaining sources are not processed at all. -/
theorem limit_positive_respected (files : List (List String))
    (ativos : List String) (l : Int) (hl : 1 ≤ l) :
    ((extract files ativos (some l)).count : Int) ≤ l ∧
    ((extract files ativos (some l)).out.length : Int) ≤ l ∧
    (∀ st : PState, ∀ line : String, st.stopped = true →
      stepLine ativos (some l) st line = st) ∧
    (∀ st : PState, ∀ lines : List String, st.stopped = true →
      runFile ativos (some l) st lines = st) ∧
    (∀ st : PState, ∀ f : List String, ∀ fs : List (List String),
      l ≤ ((runFile ativos (some l) st f).count : Int) →
      runFiles ativos (some l) st (f :: fs) = runFile ativos (some l) st f) := by
  have hstop : ∀ st : PState, ∀ line : String, st.stopped = true →
      stepLine ativos (some l) st line = st := by
    intro st line hs
    unfold stepLine
    rw [if_pos hs]
  have hcount : ((extract files ativos (some l)).count : Int) ≤ l := by
    refine runFiles_count_le files ⟨0, [], false⟩ ?_ ?_
    · show ((0 : Nat) : Int) ≤ l
      push_cast
      omega
    · intro _
      show ((0 : Nat) : Int) < l
      push_cast
      omega
  refine ⟨hcount, ?_, hstop, ?_, ?_⟩
  · show ((runFiles ativos (some l) ⟨0, [], false⟩ files).out.length : Int) ≤ l
    rw [runFiles_outlen files ⟨0, [], false⟩ rfl]
    exact hcount
  · intro st lines hs
    induction lines with
    | nil => rfl
    | cons line rest ih =>
      show (line :: rest).foldl (stepLine ativos (some l)) st = st
      rw [List.foldl_cons, hstop st line hs]
      exact ih
  · intro st f fs hlim
    rw [runFiles]
    try dsimp only
    rw [if_pos hlim]

set_option maxRecDepth 8192 in
/-- C2 witness: with limit 1 and two matching lines, exactly one record
is accepted. -/
theorem limit_positive_instance :
    (1 : Int) ≤ 1 ∧
    ((extract [["012024010202VALE3       ", "012024010202VALE3       "]]
        ["VALE3"] (some 1)).count : Int) ≤ 1 ∧
    (extract [["012024010202VALE3       ", "012024010202VALE3       "]]
        ["VALE3"] (some 1)).count = 1 :=
  ⟨le_refl 1,
    (limit_positive_respected
      [["012024010202VALE3       ", "012024010202VALE3       "]]
      ["VALE3"] 1 (by decide)).1,
    by decide⟩

/-- C8: the decoder and the pipeline are deterministic pure functions:
equal inputs give equal outputs (in this embedding both are total
functions with no state, so two runs coincide definitionally). -/
theorem decoder_deterministic (line1 line2 : String) (h : line1 = line2)
    (files1 files2 : List (List String)) (ativos : List String)
    (limit : Option Int) (hf : files1 = files2) :
    parse_line line1 = parse_line line2 ∧
    extract files1 ativos limit = extract files2 ativos limit := by
  subst h
  subst hf
  exact ⟨rfl, rfl⟩

/-- C8 witness. -/
theorem decoder_deterministic_instance :
    ("01" : String) = "01" ∧ parse_line "01" = parse_line "01" :=
  ⟨rfl, (decoder_deterministic "01" "01" rfl [] [] [] none rfl).1⟩

/-- C9: the price fallback boundary is exactly `int()` acceptance, which
is wider than a plain digit run: surrounding whitespace, a sign, and
underscore separators are accepted, e.g. the 13-character slice
`"         -123"` decodes to -1.23 rather than the absent marker. -/
theorem pyint_acceptance_boundary :
    (∀ s : String, (convert_price s).isSome = (pyInt s).isSome) ∧
    (∀ s : String, convert_price s = none ↔ pyInt s = none) ∧
    ("         -123" : String).length = 13 ∧
    pyInt "         -123" = some (-123) ∧
    convert_price "         -123" = some ((-123 : ℚ) / 100) ∧
    ((-123 : ℚ) / 100 = (-1.23 : ℚ)) ∧
    pyInt "   +45 " = some 45 ∧
    pyInt "1_050" = some 1050 ∧
    convert_price "1_050" = some ((1050 : ℚ) / 100) := by
  refine ⟨?_, ?_, by decide, by decide, ?_, by norm_num, by decide, by decide,
    ?_⟩
  · intro s
    cases hp : pyInt s with
    | none => rw [convert_price_none hp]; rfl
    | some n => rw [convert_price_some hp]; rfl
  · intro s
    constructor
    · intro hc
      cases hp : pyInt s with
      | none => rfl
      | some n => rw [convert_price_some hp] at hc; exact absurd hc (by simp)
    · intro hp
      exact convert_price_none hp
  · rw [convert_price_some (show pyInt "         -123" = some (-123) by decide)]
    norm_num
  · rw [convert_price_some (show pyInt "1_050" = some 1050 by decide)]
    norm_num

/-- C10: the tail field is whitespace-trimmed, so a line longer than 190
characters whose tail is all whitespace (e.g. a 190-character record
followed by its newline) still yields the empty string. -/
theorem tail_trimmed_to_empty (line : String) (h1 : 190 < line.length)
    (h2 : ∀ c ∈ (pyDrop line 190).data, isPyWS c = true) :
    (parse_line line).codigo_papel_registro = "" := by
  show (if 190 < line.length then pyStrip (pyDrop line 190) else "") = ""
  rw [if_pos h1]
  show String.mk (pyStripList (pyDrop line 190).data) = ""
  rw [pyStripList_all_ws h2]

set_option maxRecDepth 8192 in
/-- C10 witness: a 190-character record followed by a newline yields an
empty tail field. -/
theorem tail_trimmed_instance :
    (190 < (String.mk (List.replicate 190 '0' ++ ['\n'])).length ∧
      ∀ c ∈ (pyDrop (String.mk (List.replicate 190 '0' ++ ['\n'])) 190).data,
        isPyWS c = true) ∧
    (parse_line (String.mk (List.replicate 190 '0' ++ ['\n']))).codigo_papel_registro
      = "" :=
  ⟨⟨by decide, by decide⟩, tail_trimmed_to_empty _ (by decide) (by decide)⟩
